import Mathlib

/-!
Verification development for the simple-indexedDB repository
(src/simple-indexeddb.ts, src/simple-indexeddb.js, src/create-indexeddatabase.ts).

The development is a shallow embedding:

* The Deferred-Result Bridge (`makePromise` in both source files) exposes the
  `resolve`/`reject` functions of a host promise.  A promise is a
  single-settlement cell; we model its state machine (`PromiseState`) and the
  effect of each settle call (`applySettle`, `runSettles`) following the
  standard single-settlement semantics of host promises.

* The storage engine (IndexedDB) is the external collaborator.  We model a
  database as a version number plus an association list from object-store
  names to stores; a store holds creation parameters and an association list
  of entries.  Engine request semantics (`engineGet`, `enginePut`, ...) are
  modelled at the boundary exactly as far as the claims need them: explicit
  out-of-line keys (the engine's key generator and in-line key-path derivation
  are not exercised by any claim).

* Each adapter method of `IndexedDBObjectStore` is translated twice, at two
  observation levels that the source interleaves:
  - the handler wiring (`getHandlers`, `putHandlers`, ...): which settle calls
    the method's event handlers perform for a given engine event — a direct
    transcription of the `onsuccess`/`onerror` assignments in the source;
  - the state-level denotation (`AdapterState.get`, `AdapterState.put`, ...):
    what the method does to the database state and what its deferred result
    becomes on the engine's deterministic happy path, including the
    synchronous faults (`SyncOr.thrown`) that `this.db.transaction(...)`
    raises when `this.db` is unassigned or the store is missing.

* The Schema Migrator (`createIndexeddatabase`) is translated as a function
  from the probed database state and the desired partition list to a
  `MigrationOutcome`; engine failure of the upgrade open is an explicit
  parameter, and the engine's upgrade-transaction atomicity (an aborted
  upgrade leaves the database untouched) is part of the boundary model.
-/

namespace SimpleIndexedDB

/-! ## Deferred-Result Bridge (`makePromise`, src/simple-indexeddb.ts lines 4-12,
src/create-indexeddatabase.ts lines 12-20) -/

/-- State of a deferred result: `pending → fulfilled v | rejected e`. -/
inductive PromiseState (α ε : Type) where
  | pending
  | fulfilled (v : α)
  | rejected (e : ε)
  deriving DecidableEq, Repr

/-- A call to one of the two settle functions returned by `makePromise`. -/
inductive SettleCall (α ε : Type) where
  | resolveCall (v : α)
  | rejectCall (e : ε)
  deriving DecidableEq, Repr

/-- Effect of a single settle call on a promise: only a pending promise
changes state (standard single-settlement semantics of the host promise that
`makePromise` wraps). -/
def applySettle {α ε : Type} : PromiseState α ε → SettleCall α ε → PromiseState α ε
  | .pending, .resolveCall v => .fulfilled v
  | .pending, .rejectCall e => .rejected e
  | .fulfilled v, _ => .fulfilled v
  | .rejected e, _ => .rejected e

/-- Effect of a sequence of settle calls, in order. -/
def runSettles {α ε : Type} (s : PromiseState α ε) : List (SettleCall α ε) → PromiseState α ε
  | [] => s
  | op :: ops => runSettles (applySettle s op) ops

/-- A fresh deferred result, as produced by `makePromise`: pending. -/
def makePromiseState {α ε : Type} : PromiseState α ε := .pending

theorem applySettle_of_settled {α ε : Type} (s : PromiseState α ε) (h : s ≠ .pending)
    (op : SettleCall α ε) : applySettle s op = s := by
  cases s with
  | pending => exact absurd rfl h
  | fulfilled v => rfl
  | rejected e => rfl

theorem runSettles_of_settled {α ε : Type} (ops : List (SettleCall α ε))
    (s : PromiseState α ε) (h : s ≠ .pending) : runSettles s ops = s := by
  induction ops with
  | nil => rfl
  | cons op ops ih =>
    rw [runSettles, applySettle_of_settled s h op]
    exact ih

theorem applySettle_pending_ne_pending {α ε : Type} (op : SettleCall α ε) :
    applySettle (.pending : PromiseState α ε) op ≠ .pending := by
  cases op <;> simp [applySettle]

/-! ## Storage-engine data model (the external IndexedDB boundary, §6 of the spec) -/

/-- Creation parameters of an object store: optional key path and
auto-increment flag (defaults: no key path, auto-increment off). -/
structure StoreParams where
  keyPath : Option String := none
  autoIncrement : Bool := false
  deriving DecidableEq, Repr

/-- An object store: its creation parameters and its entries, an association
list from keys to values. -/
structure ObjectStore (K V : Type) where
  params : StoreParams
  entries : List (K × V)
  deriving DecidableEq, Repr

/-- A database: a version number and an association list from object-store
names to object stores. -/
structure Database (K V : Type) where
  version : Nat
  stores : List (String × ObjectStore K V)
  deriving DecidableEq, Repr

/-- Lookup in an association list (first match). -/
def lookupA {K V : Type} [DecidableEq K] : List (K × V) → K → Option V
  | [], _ => none
  | (k, v) :: rest, k' => if k' = k then some v else lookupA rest k'

/-- Insert-or-replace in an association list. -/
def upsertA {K V : Type} [DecidableEq K] : List (K × V) → K → V → List (K × V)
  | [], k, v => [(k, v)]
  | (k0, v0) :: rest, k, v =>
      if k = k0 then (k, v) :: rest else (k0, v0) :: upsertA rest k v

/-- Remove a key from an association list. -/
def eraseA {K V : Type} [DecidableEq K] : List (K × V) → K → List (K × V)
  | [], _ => []
  | (k0, v0) :: rest, k => if k = k0 then rest else (k0, v0) :: eraseA rest k

theorem lookupA_upsertA_self {K V : Type} [DecidableEq K]
    (l : List (K × V)) (k : K) (v : V) : lookupA (upsertA l k v) k = some v := by
  induction l with
  | nil => simp [upsertA, lookupA]
  | cons p rest ih =>
    by_cases h : k = p.1
    · simp [upsertA, h, lookupA]
    · simp [upsertA, h, lookupA, ih]

/-- Engine: `connection.objectStoreNames.contains(name)`. -/
def Database.getStore {K V : Type} (d : Database K V) (name : String) :
    Option (ObjectStore K V) :=
  lookupA d.stores name

/-- Engine: membership of a name in the database's partition-name set. -/
def Database.containsStore {K V : Type} (d : Database K V) (name : String) : Bool :=
  (d.getStore name).isSome

/-- Replace (or insert) the store held under `name`. -/
def Database.setStore {K V : Type} (d : Database K V) (name : String)
    (s : ObjectStore K V) : Database K V :=
  { d with stores := upsertA d.stores name s }

/-- Engine: append a fresh, empty object store (the unchecked part of
`createObjectStore`). -/
def Database.addStore {K V : Type} (d : Database K V) (name : String)
    (params : StoreParams) : Database K V :=
  { d with stores := d.stores ++ [(name, ⟨params, []⟩)] }

/-- Engine: `connection.createObjectStore(name, params)` throws a
`ConstraintError` when a store of that name already exists, otherwise adds a
fresh empty store. -/
def Database.createObjectStoreE {K V : Type} (d : Database K V) (name : String)
    (params : StoreParams) : Except String (Database K V) :=
  if d.containsStore name then .error "ConstraintError" else .ok (d.addStore name params)

theorem lookupA_append_right {K V : Type} [DecidableEq K]
    (l₁ l₂ : List (K × V)) (k : K) (h : lookupA l₁ k = none) :
    lookupA (l₁ ++ l₂) k = lookupA l₂ k := by
  induction l₁ with
  | nil => simp
  | cons p rest ih =>
    by_cases hk : k = p.1
    · simp [lookupA, hk] at h
    · simp only [lookupA, hk, if_neg] at h ⊢
      · exact ih h

theorem lookupA_append_left {K V : Type} [DecidableEq K]
    (l₁ l₂ : List (K × V)) (k : K) (v : V) (h : lookupA l₁ k = some v) :
    lookupA (l₁ ++ l₂) k = some v := by
  induction l₁ with
  | nil => simp [lookupA] at h
  | cons p rest ih =>
    by_cases hk : k = p.1
    · simp only [lookupA, hk, if_pos rfl] at h ⊢
      simpa using h
    · simp only [lookupA, hk, if_neg] at h ⊢
      · exact ih h

theorem containsStore_addStore {K V : Type} (d : Database K V) (name m : String)
    (params : StoreParams) :
    (d.addStore name params).containsStore m =
      (d.containsStore m || decide (m = name)) := by
  unfold Database.addStore Database.containsStore Database.getStore
  by_cases h : lookupA d.stores m = none
  · rw [lookupA_append_right _ _ _ h]
    simp only [h, Option.isSome_none, Bool.false_or]
    by_cases hm : m = name <;> simp [lookupA, hm]
  · obtain ⟨s, hs⟩ := Option.ne_none_iff_exists'.mp h
    rw [lookupA_append_left _ _ _ _ hs]
    simp [hs]

theorem containsStore_addStore_of_contains {K V : Type} (d : Database K V)
    (name m : String) (params : StoreParams) (h : d.containsStore m = true) :
    (d.addStore name params).containsStore m = true := by
  rw [containsStore_addStore, h, Bool.true_or]

theorem containsStore_addStore_self {K V : Type} (d : Database K V) (name : String)
    (params : StoreParams) : (d.addStore name params).containsStore name = true := by
  rw [containsStore_addStore]
  simp

theorem version_addStore {K V : Type} (d : Database K V) (name : String)
    (params : StoreParams) : (d.addStore name params).version = d.version := rfl

/-! ## Engine request semantics (the slice of the IndexedDB boundary the
adapter's operations exercise) -/

/-- An IndexedDB query argument: either a single key (`IDBValidKey`) or a key
range (`IDBKeyRange` modelled by its bounds). -/
inductive KeyQuery (K : Type) where
  | exact (k : K)
  | bound (lower upper : Option K) (lowerOpen upperOpen : Bool)
  deriving DecidableEq, Repr

/-- Engine: whether a key matches an optional query (no query matches
everything). -/
def KeyQuery.matchesOpt {K : Type} [LinearOrder K] : Option (KeyQuery K) → K → Bool
  | none, _ => true
  | some (.exact q), k => decide (k = q)
  | some (.bound lo hi loOpen hiOpen), k =>
      (match lo with
        | none => true
        | some l => if loOpen then decide (l < k) else decide (l ≤ k)) &&
      (match hi with
        | none => true
        | some u => if hiOpen then decide (k < u) else decide (k ≤ u))

/-- Insert an entry into a key-sorted list of entries. -/
def insertByKey {K V : Type} [LinearOrder K] (p : K × V) :
    List (K × V) → List (K × V)
  | [] => [p]
  | q :: rest => if p.1 ≤ q.1 then p :: q :: rest else q :: insertByKey p rest

/-- Sort entries by key ascending (engine reads return entries in key order). -/
def sortByKey {K V : Type} [LinearOrder K] : List (K × V) → List (K × V)
  | [] => []
  | p :: rest => insertByKey p (sortByKey rest)

/-- Engine: result of a `get` request — the stored value, or `undefined`
(`none`) when absent. -/
def engineGet {K V : Type} [DecidableEq K] (s : ObjectStore K V) (k : K) : Option V :=
  lookupA s.entries k

/-- Engine: a `put` request with an explicit out-of-line key replaces any value
already under that key and succeeds with the used key; supplying an explicit
key on an in-line-key store, or no key on a store without a key generator, is
a `DataError`.  (The engine's key generator and key-path derivation are not
exercised by any claim and are not modelled.) -/
def enginePut {K V : Type} [DecidableEq K] (s : ObjectStore K V) (v : V)
    (k : Option K) : Except String (ObjectStore K V × K) :=
  match k with
  | some k =>
      if s.params.keyPath.isSome then .error "DataError"
      else .ok ({ s with entries := upsertA s.entries k v }, k)
  | none => .error "DataError"

/-- Engine: an `add` request behaves as `put` but fails with a
`ConstraintError` when the key is already present. -/
def engineAdd {K V : Type} [DecidableEq K] (s : ObjectStore K V) (v : V)
    (k : Option K) : Except String (ObjectStore K V × K) :=
  match k with
  | some k =>
      if s.params.keyPath.isSome then .error "DataError"
      else if (lookupA s.entries k).isSome then .error "ConstraintError"
      else .ok ({ s with entries := upsertA s.entries k v }, k)
  | none => .error "DataError"

/-- Engine: `getAll(query, count)` — matching entries' values in ascending key
order, truncated to `count` entries when one is supplied. -/
def engineGetAll {K V : Type} [LinearOrder K] (s : ObjectStore K V)
    (query : Option (KeyQuery K)) (count : Option Nat) : List V :=
  let vs := (sortByKey (s.entries.filter (fun p => KeyQuery.matchesOpt query p.1))).map Prod.snd
  match count with
  | none => vs
  | some c => vs.take c

/-- Engine: `getAllKeys(query, count)` — matching keys in ascending order,
truncated to `count` keys when one is supplied. -/
def engineGetAllKeys {K V : Type} [LinearOrder K] (s : ObjectStore K V)
    (query : Option (KeyQuery K)) (count : Option Nat) : List K :=
  let ks := (sortByKey (s.entries.filter (fun p => KeyQuery.matchesOpt query p.1))).map Prod.fst
  match count with
  | none => ks
  | some c => ks.take c

/-- Engine: `getKey(query)` — the first matching key in ascending order, or
`undefined` (`none`). -/
def engineGetKey {K V : Type} [LinearOrder K] (s : ObjectStore K V)
    (query : KeyQuery K) : Option K :=
  (engineGetAllKeys s (some query) none).head?

/-- Engine: `count(query)` — number of matching entries. -/
def engineCount {K V : Type} [LinearOrder K] (s : ObjectStore K V)
    (query : Option (KeyQuery K)) : Nat :=
  (s.entries.filter (fun p => KeyQuery.matchesOpt query p.1)).length

/-- Engine: `clear()` — remove every entry. -/
def engineClear {K V : Type} (s : ObjectStore K V) : ObjectStore K V :=
  { s with entries := [] }

/-- Engine: `delete(key)` — remove the entry under a key. -/
def engineDelete {K V : Type} [DecidableEq K] (s : ObjectStore K V) (k : K) :
    ObjectStore K V :=
  { s with entries := eraseA s.entries k }

/-! ## Schema Migrator (`createIndexeddatabase`, src/create-indexeddatabase.ts
lines 34-77) -/

/-- Outcome of one `createIndexeddatabase` call: the database state afterward,
the state of the call's deferred result, and whether the call opened an
upgrade (reopened the database at a higher version). -/
structure MigrationOutcome (K V : Type) where
  db : Database K V
  result : PromiseState Nat String
  upgraded : Bool
  deriving Repr

/-- Diff phase of `createIndexeddatabase` (lines 47-55): the desired entries
whose name is absent from the database's partition-name set, in supplied
order.  Both source forms (a `Map` and a plain record) iterate the supplied
mapping and test `db.objectStoreNames.contains(name)`. -/
def pendingStores {K V : Type} (db : Database K V)
    (objectStores : List (String × StoreParams)) : List (String × StoreParams) :=
  objectStores.filter (fun p => !(db.containsStore p.1))

/-- Upgrade phase of `createIndexeddatabase` (lines 61-64): the
`onupgradeneeded` handler runs `db.createObjectStore(name, options)` for each
pending entry in order; an engine throw aborts the upgrade transaction. -/
def createStores {K V : Type} (d : Database K V) :
    List (String × StoreParams) → Except String (Database K V)
  | [] => .ok d
  | p :: rest =>
      match d.createObjectStoreE p.1 p.2 with
      | .error e => .error e
      | .ok d' => createStores d' rest

/-- Model of `createIndexeddatabase(dbname, objectStores)` after the probe
open has yielded the current database state `db` (probing a nonexistent
database corresponds to `db = ⟨1, []⟩`, the engine's fresh version-1 empty
database).  `upgradeOpenFails` injects an engine failure of the second,
version-bumped open (for example a blocking connection); the engine's
upgrade-transaction atomicity means a failed or aborted upgrade leaves the
database untouched. -/
def createIndexeddatabase {K V : Type} (db : Database K V)
    (objectStores : List (String × StoreParams))
    (upgradeOpenFails : Option String) : MigrationOutcome K V :=
  let to_create := pendingStores db objectStores
  if to_create.isEmpty then
    { db := db, result := .fulfilled db.version, upgraded := false }
  else
    match upgradeOpenFails with
    | some e => { db := db, result := .rejected e, upgraded := true }
    | none =>
        match createStores { db with version := db.version + 1 } to_create with
        | .ok db' => { db := db', result := .fulfilled db'.version, upgraded := true }
        | .error e => { db := db, result := .rejected e, upgraded := true }

/-! ## Request Adapter: handler wiring

Each `IndexedDBObjectStore` method issues one engine request and assigns
handlers to it.  `RequestEvent` is the event the engine eventually fires on
that request; each `*Handlers` function below is the transcription of exactly
the handler assignments the source performs for that method, giving the list
of settle calls the handlers make on the method's fresh deferred result. -/

/-- The single event the engine fires on a request: `success` carrying the
result, or `error` carrying the error. -/
inductive RequestEvent (ρ ε : Type) where
  | success (result : ρ)
  | error (e : ε)
  deriving DecidableEq, Repr

/-- Outcome of a method's deferred result once the engine has fired `ev`:
the fresh pending promise after the settle calls the registered handlers
make. -/
def requestOutcome {ρ α ε : Type} (handlers : RequestEvent ρ ε → List (SettleCall α ε))
    (ev : RequestEvent ρ ε) : PromiseState α ε :=
  runSettles makePromiseState (handlers ev)

/-- Handlers of `IndexedDBObjectStore.get` (src/simple-indexeddb.ts lines
82-98): only `onsuccess` is assigned — it resolves with the request result
(the `try`/`catch` around `resolve` never fires, since `resolve` does not
throw); no `onerror` handler is registered. -/
def getHandlers {V ε : Type} : RequestEvent (Option V) ε → List (SettleCall (Option V) ε)
  | .success r => [.resolveCall r]
  | .error _ => []

/-- Message of the host's `JSON.parse(undefined)` failure (`String(undefined)`
is `"undefined"`, which is not valid JSON; the exact wording is
engine-dependent, only the fact that it throws matters below). -/
def jsonParseUndefinedError : String := "SyntaxError: \x22undefined\x22 is not valid JSON"

/-- Handlers of `IndexedDBObjectStore.getJson` (src/simple-indexeddb.ts lines
58-76): only `onsuccess` is assigned.  On an absent value it calls
`reject, then falls through to `resolve(JSON.parse(undefined))`, whose throw
lands in the `catch` and rejects a second time; on a present value it
resolves with the parse result, or rejects from the `catch` when the parse
throws.  `parse` is the host's `JSON.parse` at the boundary.  No `onerror`
handler is registered. -/
def getJsonHandlers {J : Type} (key : String) (parse : String → Except String J) :
    RequestEvent (Option String) String → List (SettleCall J String)
  | .error _ => []
  | .success none =>
      [.rejectCall (key ++ " is undefined"),
       .rejectCall ("Could not parse " ++ key ++ " in object store: " ++ jsonParseUndefinedError)]
  | .success (some s) =>
      match parse s with
      | .ok j => [.resolveCall j]
      | .error e => [.rejectCall ("Could not parse " ++ key ++ " in object store: " ++ e)]

/-- Handlers of `IndexedDBObjectStore.put` (src/simple-indexeddb.ts lines
106-117): `onsuccess` resolves with the request result (the used key);
`onerror` rejects with the error. -/
def putHandlers {K ε : Type} : RequestEvent K ε → List (SettleCall K ε)
  | .success r => [.resolveCall r]
  | .error e => [.rejectCall e]

/-- Handlers of `IndexedDBObjectStore.add` (src/simple-indexeddb.ts lines
125-137): `onsuccess` resolves with the used key; `onerror` rejects. -/
def addHandlers {K ε : Type} : RequestEvent K ε → List (SettleCall K ε)
  | .success r => [.resolveCall r]
  | .error e => [.rejectCall e]

/-- Handlers of `IndexedDBObjectStore.getAll` (src/simple-indexeddb.ts lines
145-155): `onsuccess` resolves with the result list; `onerror` rejects. -/
def getAllHandlers {V ε : Type} : RequestEvent (List V) ε → List (SettleCall (List V) ε)
  | .success r => [.resolveCall r]
  | .error e => [.rejectCall e]

/-- Handlers of `IndexedDBObjectStore.clear` (src/simple-indexeddb.ts lines
160-170): `onsuccess` resolves (with the event, modelled as a unit completion
signal); `onerror` rejects. -/
def clearHandlers {ε : Type} : RequestEvent Unit ε → List (SettleCall Unit ε)
  | .success _ => [.resolveCall ()]
  | .error e => [.rejectCall e]

/-- Handlers of `IndexedDBObjectStore.count` (src/simple-indexeddb.ts lines
177-187): `onsuccess` resolves with the count; `onerror` rejects. -/
def countHandlers {ε : Type} : RequestEvent Nat ε → List (SettleCall Nat ε)
  | .success r => [.resolveCall r]
  | .error e => [.rejectCall e]

/-- Handlers of `IndexedDBObjectStore.getKey` (src/simple-indexeddb.ts lines
193-203): `onsuccess` resolves with the first matching key; `onerror`
rejects. -/
def getKeyHandlers {K ε : Type} : RequestEvent (Option K) ε → List (SettleCall (Option K) ε)
  | .success r => [.resolveCall r]
  | .error e => [.rejectCall e]

/-- Handlers of `IndexedDBObjectStore.getAllKeys` (src/simple-indexeddb.ts
lines 210-220): `onsuccess` resolves with the key list; `onerror` rejects. -/
def getAllKeysHandlers {K ε : Type} : RequestEvent (List K) ε → List (SettleCall (List K) ε)
  | .success r => [.resolveCall r]
  | .error e => [.rejectCall e]

/-- Handlers of `IndexedDBObjectStore.delete` (src/simple-indexeddb.ts lines
226-236): `onsuccess` resolves (completion signal); `onerror` rejects. -/
def deleteHandlers {ε : Type} : RequestEvent Unit ε → List (SettleCall Unit ε)
  | .success _ => [.resolveCall ()]
  | .error e => [.rejectCall e]

/-! ## Request Adapter: construction (src/simple-indexeddb.ts lines 31-52) -/

/-- Observable fields of an `IndexedDBObjectStore` instance: the connection
handle `db` (unassigned until an open event delivers it) and the two names
set synchronously in the constructor. -/
structure AdapterState (K V : Type) where
  db : Option (Database K V)
  dbname : String
  objectstorename : String
  deriving DecidableEq, Repr

/-- An event the engine fires on the constructor's open request. -/
inductive OpenEvent (K V : Type) where
  | upgradeneeded (handle : Database K V)
  | success (handle : Database K V)
  | error (e : String)
  deriving DecidableEq, Repr

/-- Body of the constructor's `onupgradeneeded` handler: create the named
store (with the supplied options) when it does not already exist. -/
def upgradeHandlerDb {K V : Type} (objectstorename : String) (opts : StoreParams)
    (handle : Database K V) : Database K V :=
  if handle.containsStore objectstorename then handle
  else handle.addStore objectstorename opts

/-- One open event processed by the constructor's handlers:
`onupgradeneeded` assigns `this.db` and creates the store if missing — the
`resolve(this)` there is commented out, so it does not settle;
`onsuccess` assigns `this.db` and resolves with the instance;
`onerror` rejects with the error. -/
def constructorStep {K V : Type} (objectstorename : String) (opts : StoreParams)
    (st : AdapterState K V × PromiseState (AdapterState K V) String)
    (ev : OpenEvent K V) : AdapterState K V × PromiseState (AdapterState K V) String :=
  match ev with
  | .upgradeneeded h =>
      ({ st.1 with db := some (upgradeHandlerDb objectstorename opts h) }, st.2)
  | .success h =>
      let a := { st.1 with db := some h }
      (a, applySettle st.2 (.resolveCall a))
  | .error e => (st.1, applySettle st.2 (.rejectCall e))

/-- The constructor: fields `dbname`/`objectstorename` are set synchronously,
`db` starts unassigned, the returned promise starts pending; then the open
request's events are processed in order by the registered handlers. -/
def constructorRun {K V : Type} (dbname objectstorename : String) (opts : StoreParams)
    (events : List (OpenEvent K V)) :
    AdapterState K V × PromiseState (AdapterState K V) String :=
  events.foldl (constructorStep objectstorename opts)
    (⟨none, dbname, objectstorename⟩, makePromiseState)

/-! ## Request Adapter: state-level method denotations

Every method starts with `this.db.transaction([this.objectstorename])` —
reading `this.db` with no guard (a `TypeError` when it is unassigned) and a
`NotFoundError` from the engine when the named store is not in the database's
scope.  `SyncOr` separates these synchronous faults from a returned deferred
result. -/

/-- Result of calling a method: a synchronous exception, or a returned
value. -/
inductive SyncOr (α : Type) where
  | thrown (msg : String)
  | value (a : α)
  deriving DecidableEq, Repr

/-- Shared prefix of every method:
`this.db.transaction([this.objectstorename]).objectStore(this.objectstorename)`. -/
def AdapterState.transactionStore {K V : Type} (self : AdapterState K V) :
    SyncOr (Database K V × ObjectStore K V) :=
  match self.db with
  | none => .thrown "TypeError: this.db is undefined"
  | some d =>
      match d.getStore self.objectstorename with
      | none => .thrown "NotFoundError: object store was not found"
      | some s => .value (d, s)

/-- Method `IndexedDBObjectStore.get(key)` on the engine's deterministic happy path:
issue the `get` request, whose success event carries the stored value. -/
def AdapterState.get {K V : Type} [DecidableEq K] (self : AdapterState K V) (k : K) :
    SyncOr (PromiseState (Option V) String) :=
  match self.transactionStore with
  | .thrown m => .thrown m
  | .value (_, s) => .value (requestOutcome getHandlers (.success (engineGet s k)))

/-- Method `IndexedDBObjectStore.getJson(key)` on the happy path of the underlying
`get` request (`parse` is the host's `JSON.parse`). -/
def AdapterState.getJson {J : Type} (self : AdapterState String String) (key : String)
    (parse : String → Except String J) : SyncOr (PromiseState J String) :=
  match self.transactionStore with
  | .thrown m => .thrown m
  | .value (_, s) =>
      .value (requestOutcome (getJsonHandlers key parse) (.success (engineGet s key)))

/-- Method `IndexedDBObjectStore.put(data, key)`: issue the `put` request; a
successful request replaces the entry and fires success with the used key, a
failing one fires error. -/
def AdapterState.put {K V : Type} [DecidableEq K] (self : AdapterState K V) (data : V)
    (key : Option K) : SyncOr (AdapterState K V × PromiseState K String) :=
  match self.transactionStore with
  | .thrown m => .thrown m
  | .value (d, s) =>
      match enginePut s data key with
      | .ok (s', usedKey) =>
          .value ({ self with db := some (d.setStore self.objectstorename s') },
            requestOutcome putHandlers (.success usedKey))
      | .error e => .value (self, requestOutcome putHandlers (.error e))

/-- Method `IndexedDBObjectStore.add(data, key)`: issue the `add` request. -/
def AdapterState.add {K V : Type} [DecidableEq K] (self : AdapterState K V) (data : V)
    (key : Option K) : SyncOr (AdapterState K V × PromiseState K String) :=
  match self.transactionStore with
  | .thrown m => .thrown m
  | .value (d, s) =>
      match engineAdd s data key with
      | .ok (s', usedKey) =>
          .value ({ self with db := some (d.setStore self.objectstorename s') },
            requestOutcome addHandlers (.success usedKey))
      | .error e => .value (self, requestOutcome addHandlers (.error e))

/-- Method `IndexedDBObjectStore.getAll(query, count)` on the happy path. -/
def AdapterState.getAll {K V : Type} [LinearOrder K] (self : AdapterState K V)
    (query : Option (KeyQuery K)) (count : Option Nat) :
    SyncOr (PromiseState (List V) String) :=
  match self.transactionStore with
  | .thrown m => .thrown m
  | .value (_, s) =>
      .value (requestOutcome getAllHandlers (.success (engineGetAll s query count)))

/-- Method `IndexedDBObjectStore.getAllKeys(query, count)` as written in
src/simple-indexeddb.ts lines 210-220: the query and count arguments are
forwarded to the engine request. -/
def AdapterState.getAllKeys {K V : Type} [LinearOrder K] (self : AdapterState K V)
    (query : Option (KeyQuery K)) (count : Option Nat) :
    SyncOr (PromiseState (List K) String) :=
  match self.transactionStore with
  | .thrown m => .thrown m
  | .value (_, s) =>
      .value (requestOutcome getAllKeysHandlers (.success (engineGetAllKeys s query count)))

/-- Method `IndexedDBObjectStore.getAllKeys(query, count)` as written in
src/simple-indexeddb.js lines 169-175: the underlying request is issued as
`.getAllKeys()` with NO arguments, so the supplied query and count are
dropped and the engine returns every key. -/
def AdapterState.getAllKeysJs {K V : Type} [LinearOrder K] (self : AdapterState K V)
    (_query : Option (KeyQuery K)) (_count : Option Nat) :
    SyncOr (PromiseState (List K) String) :=
  match self.transactionStore with
  | .thrown m => .thrown m
  | .value (_, s) =>
      .value (requestOutcome getAllKeysHandlers (.success (engineGetAllKeys s none none)))

/-- Method `IndexedDBObjectStore.getKey(key)` on the happy path. -/
def AdapterState.getKey {K V : Type} [LinearOrder K] (self : AdapterState K V)
    (query : KeyQuery K) : SyncOr (PromiseState (Option K) String) :=
  match self.transactionStore with
  | .thrown m => .thrown m
  | .value (_, s) =>
      .value (requestOutcome getKeyHandlers (.success (engineGetKey s query)))

/-- Method `IndexedDBObjectStore.count(query)` on the happy path. -/
def AdapterState.count {K V : Type} [LinearOrder K] (self : AdapterState K V)
    (query : Option (KeyQuery K)) : SyncOr (PromiseState Nat String) :=
  match self.transactionStore with
  | .thrown m => .thrown m
  | .value (_, s) => .value (requestOutcome countHandlers (.success (engineCount s query)))

/-- Method `IndexedDBObjectStore.clear()` on the happy path. -/
def AdapterState.clear {K V : Type} (self : AdapterState K V) :
    SyncOr (AdapterState K V × PromiseState Unit String) :=
  match self.transactionStore with
  | .thrown m => .thrown m
  | .value (d, s) =>
      .value ({ self with db := some (d.setStore self.objectstorename (engineClear s)) },
        requestOutcome clearHandlers (.success ()))

/-- Method `IndexedDBObjectStore.delete(key)` on the happy path. -/
def AdapterState.delete {K V : Type} [DecidableEq K] (self : AdapterState K V) (k : K) :
    SyncOr (AdapterState K V × PromiseState Unit String) :=
  match self.transactionStore with
  | .thrown m => .thrown m
  | .value (d, s) =>
      .value ({ self with db := some (d.setStore self.objectstorename (engineDelete s k)) },
        requestOutcome deleteHandlers (.success ()))

/-! ## Helper lemmas about the migrator's upgrade phase -/

theorem createObjectStoreE_ok {K V : Type} {d d1 : Database K V} {n : String}
    {ps : StoreParams} (h : d.createObjectStoreE n ps = .ok d1) :
    d.containsStore n = false ∧ d1 = d.addStore n ps := by
  unfold Database.createObjectStoreE at h
  by_cases hc : d.containsStore n = true
  · simp [hc] at h
  · refine ⟨by simpa using hc, ?_⟩
    simp only [hc, if_neg, Bool.not_eq_true] at h
    · exact (Except.ok.injEq _ _).mp h |>.symm

theorem createStores_version {K V : Type} {l : List (String × StoreParams)}
    {d d' : Database K V} (h : createStores d l = .ok d') : d'.version = d.version := by
  induction l generalizing d with
  | nil =>
    simp only [createStores] at h
    cases h; rfl
  | cons p rest ih =>
    simp only [createStores] at h
    cases hh : d.createObjectStoreE p.1 p.2 with
    | error e => rw [hh] at h; cases h
    | ok d1 =>
      rw [hh] at h
      obtain ⟨_, rfl⟩ := createObjectStoreE_ok hh
      exact (ih h).trans (version_addStore ..)

theorem createStores_monotone {K V : Type} {l : List (String × StoreParams)}
    {d d' : Database K V} (h : createStores d l = .ok d') (n : String)
    (hn : d.containsStore n = true) : d'.containsStore n = true := by
  induction l generalizing d with
  | nil =>
    simp only [createStores] at h
    cases h; exact hn
  | cons p rest ih =>
    simp only [createStores] at h
    cases hh : d.createObjectStoreE p.1 p.2 with
    | error e => rw [hh] at h; cases h
    | ok d1 =>
      rw [hh] at h
      obtain ⟨_, rfl⟩ := createObjectStoreE_ok hh
      exact ih h (containsStore_addStore_of_contains _ _ _ _ hn)

theorem createStores_all {K V : Type} {l : List (String × StoreParams)}
    {d d' : Database K V} (h : createStores d l = .ok d') :
    ∀ p ∈ l, d'.containsStore p.1 = true := by
  induction l generalizing d with
  | nil => intro p hp; cases hp
  | cons q rest ih =>
    simp only [createStores] at h
    cases hh : d.createObjectStoreE q.1 q.2 with
    | error e => rw [hh] at h; cases h
    | ok d1 =>
      rw [hh] at h
      obtain ⟨_, rfl⟩ := createObjectStoreE_ok hh
      intro p hp
      rcases List.mem_cons.mp hp with rfl | hp
      · exact createStores_monotone h _ (containsStore_addStore_self ..)
      · exact ih h p hp

theorem createStores_ok_of_fresh {K V : Type} (l : List (String × StoreParams)) :
    ∀ (d : Database K V), (l.map Prod.fst).Nodup →
    (∀ p ∈ l, d.containsStore p.1 = false) →
    ∃ d', createStores d l = .ok d' := by
  induction l with
  | nil => intro d _ _; exact ⟨d, rfl⟩
  | cons q rest ih =>
    intro d hnd habs
    rw [List.map_cons] at hnd
    obtain ⟨hnotin, hndrest⟩ := List.nodup_cons.mp hnd
    have hq : d.containsStore q.1 = false := habs q (List.mem_cons_self ..)
    have hcreate : d.createObjectStoreE q.1 q.2 = .ok (d.addStore q.1 q.2) := by
      unfold Database.createObjectStoreE
      simp [hq]
    have habs' : ∀ p ∈ rest, (d.addStore q.1 q.2).containsStore p.1 = false := by
      intro p hp
      rw [containsStore_addStore]
      have h1 : d.containsStore p.1 = false := habs p (List.mem_cons_of_mem _ hp)
      have h2 : p.1 ≠ q.1 := fun hEq => hnotin (hEq ▸ List.mem_map_of_mem Prod.fst hp)
      simp [h1, h2]
    obtain ⟨d', hd'⟩ := ih (d.addStore q.1 q.2) hndrest habs'
    exact ⟨d', by simp only [createStores, hcreate]; exact hd'⟩

theorem containsStore_version_bump {K V : Type} (d : Database K V) (v : Nat)
    (n : String) : ({ d with version := v } : Database K V).containsStore n =
      d.containsStore n := rfl

/-! ## Claim theorems about the Schema Migrator -/

/-- C1: for every database whose partition-name set is missing some partition
of the desired set, `createIndexeddatabase` opens an upgrade at version
current + 1, creates every missing partition inside that single upgrade
transaction, and fulfils its deferred result with exactly current + 1. -/
theorem migrator_creates_missing {K V : Type} (db : Database K V)
    (os : List (String × StoreParams)) (hnd : (os.map Prod.fst).Nodup)
    (P : String × StoreParams) (hP : P ∈ os)
    (hmiss : db.containsStore P.1 = false) :
    (createIndexeddatabase db os none).upgraded = true ∧
    (createIndexeddatabase db os none).db.version = db.version + 1 ∧
    (∀ p ∈ os, (createIndexeddatabase db os none).db.containsStore p.1 = true) ∧
    (createIndexeddatabase db os none).result = PromiseState.fulfilled (db.version + 1) := by
  have hPtc : P ∈ pendingStores db os :=
    List.mem_filter.mpr ⟨hP, by simp [hmiss]⟩
  have hne : (pendingStores db os).isEmpty = false := by
    cases h : pendingStores db os with
    | nil => rw [h] at hPtc; cases hPtc
    | cons a l => rfl
  have hndtc : ((pendingStores db os).map Prod.fst).Nodup :=
    hnd.sublist ((List.filter_sublist _).map Prod.fst)
  have habs : ∀ p ∈ pendingStores db os,
      ({ db with version := db.version + 1 } : Database K V).containsStore p.1 = false := by
    intro p hp
    have := (List.mem_filter.mp hp).2
    rw [containsStore_version_bump]
    simpa using this
  obtain ⟨d', hd'⟩ := createStores_ok_of_fresh (pendingStores db os) _ hndtc habs
  have hver : d'.version = db.version + 1 := createStores_version hd'
  have hout : createIndexeddatabase db os none =
      { db := d', result := .fulfilled d'.version, upgraded := true } := by
    simp [createIndexeddatabase, hne, hd']
  refine ⟨by rw [hout], by rw [hout]; exact hver, ?_, by rw [hout, hver]⟩
  intro p hp
  rw [hout]
  cases hc : db.containsStore p.1 with
  | true =>
    exact createStores_monotone hd' p.1 (by rwa [containsStore_version_bump])
  | false =>
    exact createStores_all hd' p (List.mem_filter.mpr ⟨hp, by simp [hc]⟩)

/-- C1 witness: a database at version 3 holding only partition "a", with
desired set {a, b}: the call upgrades, creates "b", and fulfils with 4. -/
theorem migrator_creates_missing_witness :
    (createIndexeddatabase (⟨3, [("a", ⟨⟨none, false⟩, []⟩)]⟩ : Database Nat String)
        [("a", ⟨none, false⟩), ("b", ⟨none, true⟩)] none).upgraded = true ∧
    (createIndexeddatabase (⟨3, [("a", ⟨⟨none, false⟩, []⟩)]⟩ : Database Nat String)
        [("a", ⟨none, false⟩), ("b", ⟨none, true⟩)] none).db.version = 3 + 1 ∧
    (∀ p ∈ [(("a" : String), (⟨none, false⟩ : StoreParams)), ("b", ⟨none, true⟩)],
      (createIndexeddatabase (⟨3, [("a", ⟨⟨none, false⟩, []⟩)]⟩ : Database Nat String)
        [("a", ⟨none, false⟩), ("b", ⟨none, true⟩)] none).db.containsStore p.1 = true) ∧
    (createIndexeddatabase (⟨3, [("a", ⟨⟨none, false⟩, []⟩)]⟩ : Database Nat String)
        [("a", ⟨none, false⟩), ("b", ⟨none, true⟩)] none).result =
      PromiseState.fulfilled (3 + 1) :=
  migrator_creates_missing _ _ (by decide) ("b", ⟨none, true⟩) (by decide) (by decide)

/-- C2: when every desired partition already exists (in particular for an
empty desired set), the migrator performs the probe only: no upgrade is
opened, the database (and so its version) is unchanged, and the call fulfils
with the current version; a second call with the same desired set returns the
identical outcome. -/
theorem migrator_noop_idempotent {K V : Type} (db : Database K V)
    (os : List (String × StoreParams)) (f1 f2 : Option String)
    (hsub : ∀ p ∈ os, db.containsStore p.1 = true) :
    (createIndexeddatabase db os f1).upgraded = false ∧
    (createIndexeddatabase db os f1).db = db ∧
    (createIndexeddatabase db os f1).result = PromiseState.fulfilled db.version ∧
    createIndexeddatabase (createIndexeddatabase db os f1).db os f2 =
      createIndexeddatabase db os f1 := by
  have hpend : pendingStores db os = [] := by
    unfold pendingStores
    rw [List.filter_eq_nil_iff]
    intro p hp
    simp [hsub p hp]
  have h1 : createIndexeddatabase db os f1 =
      { db := db, result := .fulfilled db.version, upgraded := false } := by
    simp [createIndexeddatabase, hpend]
  have h2 : createIndexeddatabase db os f2 =
      { db := db, result := .fulfilled db.version, upgraded := false } := by
    simp [createIndexeddatabase, hpend]
  rw [h1]
  exact ⟨rfl, rfl, rfl, by rw [h2]⟩

/-- C2 witness: a database at version 2 holding partitions {a, b}, desired set
{a}: both calls are no-ops fulfilling with 2. -/
theorem migrator_noop_idempotent_witness :
    (createIndexeddatabase
        (⟨2, [("a", ⟨⟨none, false⟩, []⟩), ("b", ⟨⟨none, false⟩, []⟩)]⟩ : Database Nat String)
        [("a", ⟨none, false⟩)] none).upgraded = false ∧
    (createIndexeddatabase
        (⟨2, [("a", ⟨⟨none, false⟩, []⟩), ("b", ⟨⟨none, false⟩, []⟩)]⟩ : Database Nat String)
        [("a", ⟨none, false⟩)] none).db =
      (⟨2, [("a", ⟨⟨none, false⟩, []⟩), ("b", ⟨⟨none, false⟩, []⟩)]⟩ : Database Nat String) ∧
    (createIndexeddatabase
        (⟨2, [("a", ⟨⟨none, false⟩, []⟩), ("b", ⟨⟨none, false⟩, []⟩)]⟩ : Database Nat String)
        [("a", ⟨none, false⟩)] none).result = PromiseState.fulfilled 2 ∧
    createIndexeddatabase
        (createIndexeddatabase
          (⟨2, [("a", ⟨⟨none, false⟩, []⟩), ("b", ⟨⟨none, false⟩, []⟩)]⟩ : Database Nat String)
          [("a", ⟨none, false⟩)] none).db [("a", ⟨none, false⟩)] none =
      createIndexeddatabase
        (⟨2, [("a", ⟨⟨none, false⟩, []⟩), ("b", ⟨⟨none, false⟩, []⟩)]⟩ : Database Nat String)
        [("a", ⟨none, false⟩)] none :=
  migrator_noop_idempotent _ _ none none (by decide)

/-- C9: when the pending-migration set is non-empty (so an upgrade open
occurs), the partition creations are atomic as a unit: a fulfilled result
means every pending partition exists afterward, and a rejected result means
the database — its version included — is exactly the pre-call state. -/
theorem migrator_upgrade_atomic {K V : Type} (db : Database K V)
    (os : List (String × StoreParams)) (fails : Option String)
    (hne : pendingStores db os ≠ []) :
    (createIndexeddatabase db os fails).upgraded = true ∧
    (∀ v, (createIndexeddatabase db os fails).result = PromiseState.fulfilled v →
      ∀ p ∈ pendingStores db os,
        (createIndexeddatabase db os fails).db.containsStore p.1 = true) ∧
    (∀ e, (createIndexeddatabase db os fails).result = PromiseState.rejected e →
      (createIndexeddatabase db os fails).db = db ∧
      (createIndexeddatabase db os fails).db.version = db.version) := by
  have hemp : (pendingStores db os).isEmpty = false := by
    cases h : pendingStores db os with
    | nil => exact absurd h hne
    | cons a l => rfl
  cases fails with
  | some e =>
    refine ⟨by simp [createIndexeddatabase, hemp], ?_, ?_⟩
    · intro v hv
      simp [createIndexeddatabase, hemp] at hv
    · intro e' _
      constructor <;> simp [createIndexeddatabase, hemp]
  | none =>
    cases hcs : createStores { db with version := db.version + 1 } (pendingStores db os) with
    | ok d' =>
      refine ⟨by simp [createIndexeddatabase, hemp, hcs], ?_, ?_⟩
      · intro v _ p hp
        have : (createIndexeddatabase db os none).db = d' := by
          simp [createIndexeddatabase, hemp, hcs]
        rw [this]
        exact createStores_all hcs p hp
      · intro e he
        simp [createIndexeddatabase, hemp, hcs] at he
    | error e =>
      refine ⟨by simp [createIndexeddatabase, hemp, hcs], ?_, ?_⟩
      · intro v hv
        simp [createIndexeddatabase, hemp, hcs] at hv
      · intro e' _
        constructor <;> simp [createIndexeddatabase, hemp, hcs]

/-- C9 witness: a version-1 database with no partitions, desired set {a}
with an injected engine failure of the upgrade open: the result is rejected
and the database is untouched (and the same call without the failure fulfils
with every pending partition created). -/
theorem migrator_upgrade_atomic_witness :
    (createIndexeddatabase (⟨1, []⟩ : Database Nat String)
        [("a", ⟨none, false⟩)] (some "blocked")).upgraded = true ∧
    (∀ v, (createIndexeddatabase (⟨1, []⟩ : Database Nat String)
        [("a", ⟨none, false⟩)] (some "blocked")).result = PromiseState.fulfilled v →
      ∀ p ∈ pendingStores (⟨1, []⟩ : Database Nat String) [("a", ⟨none, false⟩)],
        (createIndexeddatabase (⟨1, []⟩ : Database Nat String)
          [("a", ⟨none, false⟩)] (some "blocked")).db.containsStore p.1 = true) ∧
    (∀ e, (createIndexeddatabase (⟨1, []⟩ : Database Nat String)
        [("a", ⟨none, false⟩)] (some "blocked")).result = PromiseState.rejected e →
      (createIndexeddatabase (⟨1, []⟩ : Database Nat String)
        [("a", ⟨none, false⟩)] (some "blocked")).db = (⟨1, []⟩ : Database Nat String) ∧
      (createIndexeddatabase (⟨1, []⟩ : Database Nat String)
        [("a", ⟨none, false⟩)] (some "blocked")).db.version =
        (⟨1, []⟩ : Database Nat String).version) :=
  migrator_upgrade_atomic _ _ (some "blocked") (by decide)

/-! ## Claim theorems about the Deferred-Result Bridge and the adapter's
handler wiring -/

/-- C8: a deferred result produced by `makePromise` starts pending, the first
settle call alone determines its outcome (a whole sequence of settle calls
yields exactly the state the first call produces), and that first call always
leaves the pending state — so the state machine
`pending → fulfilled(value) | rejected(error)` takes at most one transition
and later settle calls have no additional effect. -/
theorem makePromise_single_settlement {α ε : Type} (op : SettleCall α ε)
    (ops : List (SettleCall α ε)) :
    runSettles (makePromiseState : PromiseState α ε) [] = PromiseState.pending ∧
    runSettles makePromiseState (op :: ops) = applySettle makePromiseState op ∧
    applySettle (makePromiseState : PromiseState α ε) op ≠ PromiseState.pending := by
  refine ⟨rfl, ?_, applySettle_pending_ne_pending op⟩
  rw [runSettles]
  exact runSettles_of_settled ops _ (applySettle_pending_ne_pending op)

/-- C3 counterexample: when the engine fires an error event on the request
issued by `IndexedDBObjectStore.get`, the operation's fresh deferred result
stays pending — `get` registers no `onerror` handler — so the claim that it
is rejected with the engine-reported error fails. -/
theorem get_error_leaves_pending :
    requestOutcome (getHandlers (V := String) (ε := String))
        (.error "InvalidStateError") = PromiseState.pending ∧
    requestOutcome (getHandlers (V := String) (ε := String))
        (.error "InvalidStateError") ≠ PromiseState.rejected "InvalidStateError" := by
  exact ⟨rfl, by simp [requestOutcome, getHandlers, runSettles, makePromiseState]⟩

/-- C3 amended: every Request Adapter operation that registers an `onerror`
handler (`put`, `add`, `getAll`, `getAllKeys`, `getKey`, `count`, `clear`,
`delete`) rejects its fresh deferred result with the engine-reported error
when the underlying request fires an error event; `get` and `getJson`
register no `onerror` handler, so on an error event their deferred result
remains pending. -/
theorem request_error_propagation {V J K2 : Type} (e : String) (key : String)
    (parse : String → Except String J) :
    requestOutcome (putHandlers (K := K2)) (.error e) = PromiseState.rejected e ∧
    requestOutcome (addHandlers (K := K2)) (.error e) = PromiseState.rejected e ∧
    requestOutcome (getAllHandlers (V := V)) (.error e) = PromiseState.rejected e ∧
    requestOutcome (getAllKeysHandlers (K := K2)) (.error e) = PromiseState.rejected e ∧
    requestOutcome (getKeyHandlers (K := K2)) (.error e) = PromiseState.rejected e ∧
    requestOutcome countHandlers (.error e) = PromiseState.rejected e ∧
    requestOutcome clearHandlers (.error e) = PromiseState.rejected e ∧
    requestOutcome deleteHandlers (.error e) = PromiseState.rejected e ∧
    requestOutcome (getHandlers (V := V)) (.error e) = PromiseState.pending ∧
    requestOutcome (getJsonHandlers key parse) (.error e) = PromiseState.pending :=
  ⟨rfl, rfl, rfl, rfl, rfl, rfl, rfl, rfl, rfl, rfl⟩

/-- C5: `getJson(k)` on an absent value settles its deferred result as the
rejection "k is undefined" (a message containing k) — the handler's second
settle attempt, from the throw of `JSON.parse(undefined)`, has no further
effect — and on a present value that is not valid JSON it settles as a
rejection naming k and wrapping the parse error; in both cases any further
settle calls leave the rejected outcome unchanged. -/
theorem getJson_decode_errors {J : Type} (key : String)
    (parse : String → Except String J) (s e : String)
    (hparse : parse s = .error e) :
    requestOutcome (getJsonHandlers key parse) (.success none) =
      PromiseState.rejected (key ++ " is undefined") ∧
    (∃ pre post, key ++ " is undefined" = pre ++ key ++ post) ∧
    requestOutcome (getJsonHandlers key parse) (.success (some s)) =
      PromiseState.rejected ("Could not parse " ++ key ++ " in object store: " ++ e) ∧
    (∃ pre post, "Could not parse " ++ key ++ " in object store: " ++ e =
      pre ++ key ++ post) ∧
    (∀ extra : List (SettleCall J String),
      runSettles (requestOutcome (getJsonHandlers key parse) (.success none)) extra =
        requestOutcome (getJsonHandlers key parse) (.success none)) := by
  refine ⟨rfl, ⟨"", " is undefined", rfl⟩, ?_, ?_, ?_⟩
  · simp [requestOutcome, getJsonHandlers, hparse, runSettles, makePromiseState, applySettle]
  · exact ⟨"Could not parse ", " in object store: " ++ e, by
      simp [String.append_assoc]⟩
  · intro extra
    apply runSettles_of_settled
    simp [requestOutcome, getJsonHandlers, runSettles, makePromiseState, applySettle]

/-- C5 witness: key "k" with a parse function rejecting "oops" on the stored
text "oops": both decode failures reject with the documented messages. -/
theorem getJson_decode_errors_witness :
    requestOutcome (getJsonHandlers "k"
        (fun s => if s = "1" then Except.ok (1 : Nat) else Except.error "bad token"))
        (.success none) = PromiseState.rejected ("k" ++ " is undefined") ∧
    (∃ pre post, "k" ++ " is undefined" = pre ++ "k" ++ post) ∧
    requestOutcome (getJsonHandlers "k"
        (fun s => if s = "1" then Except.ok (1 : Nat) else Except.error "bad token"))
        (.success (some "oops")) =
      PromiseState.rejected ("Could not parse " ++ "k" ++ " in object store: " ++ "bad token") ∧
    (∃ pre post, "Could not parse " ++ "k" ++ " in object store: " ++ "bad token" =
      pre ++ "k" ++ post) ∧
    (∀ extra : List (SettleCall Nat String),
      runSettles (requestOutcome (getJsonHandlers "k"
          (fun s => if s = "1" then Except.ok (1 : Nat) else Except.error "bad token"))
          (.success none)) extra =
        requestOutcome (getJsonHandlers "k"
          (fun s => if s = "1" then Except.ok (1 : Nat) else Except.error "bad token"))
          (.success none)) :=
  getJson_decode_errors "k" _ "oops" "bad token" (by simp)

/-! ## Claim theorems about construction and the state-level operations -/

theorem constructorRun_upgrade_only {K V : Type} (dbname osname : String)
    (opts : StoreParams) (us : List (OpenEvent K V))
    (hus : ∀ ev ∈ us, ∃ h, ev = OpenEvent.upgradeneeded h) :
    ∃ adb : Option (Database K V),
      constructorRun dbname osname opts us =
        (⟨adb, dbname, osname⟩, PromiseState.pending) := by
  suffices hgen : ∀ (l : List (OpenEvent K V)),
      (∀ ev ∈ l, ∃ h, ev = OpenEvent.upgradeneeded h) →
      ∀ adb0 : Option (Database K V),
      ∃ adb, l.foldl (constructorStep osname opts)
          (⟨adb0, dbname, osname⟩, PromiseState.pending) =
        (⟨adb, dbname, osname⟩, PromiseState.pending) by
    simpa [constructorRun, makePromiseState] using hgen us hus none
  intro l
  induction l with
  | nil => exact fun _ adb0 => ⟨adb0, rfl⟩
  | cons ev rest ih =>
    intro hl adb0
    obtain ⟨h, rfl⟩ := hl ev (List.mem_cons_self ..)
    have hrest : ∀ ev ∈ rest, ∃ h, ev = OpenEvent.upgradeneeded h :=
      fun ev hev => hl ev (List.mem_cons_of_mem _ hev)
    simpa [List.foldl_cons, constructorStep] using
      ih hrest (some (upgradeHandlerDb osname opts h))

/-- C4: for every construction of the adapter, a run of upgrade-needed events
alone leaves the construction's deferred result pending; when the open then
fires success the result is fulfilled with the adapter instance itself, its
connection handle captured at that point; and when the open fires error the
result is rejected with the engine-reported error. -/
theorem constructor_settlement {K V : Type} (dbname osname : String)
    (opts : StoreParams) (us : List (OpenEvent K V))
    (hus : ∀ ev ∈ us, ∃ h, ev = OpenEvent.upgradeneeded h) :
    (constructorRun dbname osname opts us).2 = PromiseState.pending ∧
    (∀ h : Database K V,
      (constructorRun dbname osname opts (us ++ [OpenEvent.success h])).2 =
        PromiseState.fulfilled ⟨some h, dbname, osname⟩ ∧
      (constructorRun dbname osname opts (us ++ [OpenEvent.success h])).1.db = some h) ∧
    (∀ e, (constructorRun dbname osname opts (us ++ [OpenEvent.error e])).2 =
      PromiseState.rejected e) := by
  obtain ⟨adb, heq⟩ := constructorRun_upgrade_only dbname osname opts us hus
  have happ : ∀ ev : OpenEvent K V,
      constructorRun dbname osname opts (us ++ [ev]) =
        constructorStep osname opts (constructorRun dbname osname opts us) ev := by
    intro ev
    unfold constructorRun
    rw [List.foldl_append]
    rfl
  refine ⟨by rw [heq], ?_, ?_⟩
  · intro h
    rw [happ, heq]
    exact ⟨rfl, rfl⟩
  · intro e
    rw [happ, heq]
    rfl

/-- C4 witness: an upgrade-needed event on a fresh version-1 database leaves
construction pending; a following success fulfils with the instance, a
following error rejects. -/
theorem constructor_settlement_witness :
    (constructorRun (K := Nat) (V := String) "D" "a" ⟨none, false⟩
        [OpenEvent.upgradeneeded ⟨1, []⟩]).2 = PromiseState.pending ∧
    (∀ h : Database Nat String,
      (constructorRun "D" "a" ⟨none, false⟩
          ([OpenEvent.upgradeneeded ⟨1, []⟩] ++ [OpenEvent.success h])).2 =
        PromiseState.fulfilled ⟨some h, "D", "a"⟩ ∧
      (constructorRun "D" "a" ⟨none, false⟩
          ([OpenEvent.upgradeneeded ⟨1, []⟩] ++ [OpenEvent.success h])).1.db = some h) ∧
    (∀ e, (constructorRun (K := Nat) (V := String) "D" "a" ⟨none, false⟩
        ([OpenEvent.upgradeneeded ⟨1, []⟩] ++ [OpenEvent.error e])).2 =
      PromiseState.rejected e) :=
  constructor_settlement "D" "a" ⟨none, false⟩ [OpenEvent.upgradeneeded ⟨1, []⟩]
    (by intro ev hev; rw [List.mem_singleton] at hev; exact ⟨_, hev⟩)

/-- C7: on an adapter whose partition accepts explicit keys (no in-line key
path), `put(v, k)` fulfils with the used key and leaves a state in which
`get(k)` fulfils with exactly the stored value v. -/
theorem put_get_roundtrip {K V : Type} [DecidableEq K] (self : AdapterState K V)
    (d : Database K V) (s : ObjectStore K V) (v : V) (k : K)
    (hdb : self.db = some d) (hs : d.getStore self.objectstorename = some s)
    (hkp : s.params.keyPath = none) :
    ∃ self' : AdapterState K V,
      self.put v (some k) = SyncOr.value (self', PromiseState.fulfilled k) ∧
      self'.get k = SyncOr.value (PromiseState.fulfilled (some v)) := by
  have hts : self.transactionStore = .value (d, s) := by
    unfold AdapterState.transactionStore
    rw [hdb]
    simp [hs]
  have hput : enginePut s v (some k) =
      .ok ({ s with entries := upsertA s.entries k v }, k) := by
    unfold enginePut
    simp [hkp]
  refine ⟨{ self with db := some (d.setStore self.objectstorename
      { s with entries := upsertA s.entries k v }) }, ?_, ?_⟩
  · unfold AdapterState.put
    rw [hts]
    simp only [hput]
    rfl
  · unfold AdapterState.get AdapterState.transactionStore
    have hstore : (d.setStore self.objectstorename
        { s with entries := upsertA s.entries k v }).getStore self.objectstorename =
        some { s with entries := upsertA s.entries k v } := by
      unfold Database.setStore Database.getStore
      exact lookupA_upsertA_self ..
    simp only [hstore]
    have hget : engineGet { s with entries := upsertA s.entries k v } k = some v := by
      unfold engineGet
      exact lookupA_upsertA_self ..
    rw [hget]
    rfl

/-- C7 witness: put "x" under key 5 into partition "a", then get 5 yields
"x". -/
theorem put_get_roundtrip_witness :
    ∃ self' : AdapterState Nat String,
      AdapterState.put
          (⟨some ⟨1, [("a", ⟨⟨none, false⟩, []⟩)]⟩, "D", "a"⟩ : AdapterState Nat String)
          "x" (some 5) = SyncOr.value (self', PromiseState.fulfilled 5) ∧
      self'.get 5 = SyncOr.value (PromiseState.fulfilled (some "x")) :=
  put_get_roundtrip _ ⟨1, [("a", ⟨⟨none, false⟩, []⟩)]⟩ ⟨⟨none, false⟩, []⟩ "x" 5
    rfl rfl rfl

/-- C10: when the adapter's database handle is unassigned (construction's
open has not fired success or upgrade — for instance after a failed
construction), every operation faults synchronously on reading `this.db`
instead of returning a rejected deferred result: none of them checks the
handle before opening a transaction. -/
theorem operations_fault_when_db_unset {K V : Type} [LinearOrder K]
    (self : AdapterState K V) (hdb : self.db = none) (k : K) (v : V)
    (query : Option (KeyQuery K)) (q1 : KeyQuery K) (count : Option Nat)
    (selfS : AdapterState String String) (hdbS : selfS.db = none)
    (key : String) {J : Type} (parse : String → Except String J) :
    self.get k = SyncOr.thrown "TypeError: this.db is undefined" ∧
    selfS.getJson key parse = SyncOr.thrown "TypeError: this.db is undefined" ∧
    self.put v (some k) = SyncOr.thrown "TypeError: this.db is undefined" ∧
    self.add v (some k) = SyncOr.thrown "TypeError: this.db is undefined" ∧
    self.getAll query count = SyncOr.thrown "TypeError: this.db is undefined" ∧
    self.getAllKeys query count = SyncOr.thrown "TypeError: this.db is undefined" ∧
    self.getKey q1 = SyncOr.thrown "TypeError: this.db is undefined" ∧
    self.count query = SyncOr.thrown "TypeError: this.db is undefined" ∧
    self.clear = SyncOr.thrown "TypeError: this.db is undefined" ∧
    self.delete k = SyncOr.thrown "TypeError: this.db is undefined" := by
  have hts : self.transactionStore = .thrown "TypeError: this.db is undefined" := by
    unfold AdapterState.transactionStore
    rw [hdb]
  have htsS : selfS.transactionStore = .thrown "TypeError: this.db is undefined" := by
    unfold AdapterState.transactionStore
    rw [hdbS]
  refine ⟨?_, ?_, ?_, ?_, ?_, ?_, ?_, ?_, ?_, ?_⟩
  · unfold AdapterState.get; rw [hts]
  · unfold AdapterState.getJson; rw [htsS]
  · unfold AdapterState.put; rw [hts]
  · unfold AdapterState.add; rw [hts]
  · unfold AdapterState.getAll; rw [hts]
  · unfold AdapterState.getAllKeys; rw [hts]
  · unfold AdapterState.getKey; rw [hts]
  · unfold AdapterState.count; rw [hts]
  · unfold AdapterState.clear; rw [hts]
  · unfold AdapterState.delete; rw [hts]

/-- C10 witness: an adapter whose handle was never assigned faults
synchronously on every operation. -/
theorem operations_fault_when_db_unset_witness :
    AdapterState.get (⟨none, "D", "a"⟩ : AdapterState Nat String) 1 =
      SyncOr.thrown "TypeError: this.db is undefined" ∧
    AdapterState.getJson (⟨none, "D", "a"⟩ : AdapterState String String) "k"
        (fun s => Except.ok s) = SyncOr.thrown "TypeError: this.db is undefined" ∧
    AdapterState.put (⟨none, "D", "a"⟩ : AdapterState Nat String) "v" (some 1) =
      SyncOr.thrown "TypeError: this.db is undefined" ∧
    AdapterState.add (⟨none, "D", "a"⟩ : AdapterState Nat String) "v" (some 1) =
      SyncOr.thrown "TypeError: this.db is undefined" ∧
    AdapterState.getAll (⟨none, "D", "a"⟩ : AdapterState Nat String) none none =
      SyncOr.thrown "TypeError: this.db is undefined" ∧
    AdapterState.getAllKeys (⟨none, "D", "a"⟩ : AdapterState Nat String) none none =
      SyncOr.thrown "TypeError: this.db is undefined" ∧
    AdapterState.getKey (⟨none, "D", "a"⟩ : AdapterState Nat String) (KeyQuery.exact 1) =
      SyncOr.thrown "TypeError: this.db is undefined" ∧
    AdapterState.count (⟨none, "D", "a"⟩ : AdapterState Nat String) none =
      SyncOr.thrown "TypeError: this.db is undefined" ∧
    AdapterState.clear (⟨none, "D", "a"⟩ : AdapterState Nat String) =
      SyncOr.thrown "TypeError: this.db is undefined" ∧
    AdapterState.delete (⟨none, "D", "a"⟩ : AdapterState Nat String) 1 =
      SyncOr.thrown "TypeError: this.db is undefined" :=
  operations_fault_when_db_unset _ rfl 1 "v" none (KeyQuery.exact 1) none _ rfl "k" _

/-- C6: at a partition holding keys {1, 2}, with the query selecting exactly
key 1 and no limit, the TypeScript adapter's `getAllKeys` forwards the query
to the engine request and fulfils with [1], but the shipped JavaScript
build's `getAllKeys` issues the engine request with no arguments, so it
fulfils with [1, 2] — the caller's filter (and any limit) is silently
dropped, contradicting the method's own documentation. -/
theorem getAllKeysJs_drops_arguments :
    AdapterState.getAllKeys
        (⟨some ⟨1, [("a", ⟨⟨none, false⟩, [(1, "x"), (2, "y")]⟩)]⟩, "D", "a"⟩ :
          AdapterState Nat String) (some (KeyQuery.exact 1)) none =
      SyncOr.value (PromiseState.fulfilled [1]) ∧
    AdapterState.getAllKeysJs
        (⟨some ⟨1, [("a", ⟨⟨none, false⟩, [(1, "x"), (2, "y")]⟩)]⟩, "D", "a"⟩ :
          AdapterState Nat String) (some (KeyQuery.exact 1)) none =
      SyncOr.value (PromiseState.fulfilled [1, 2]) ∧
    AdapterState.getAllKeysJs
        (⟨some ⟨1, [("a", ⟨⟨none, false⟩, [(1, "x"), (2, "y")]⟩)]⟩, "D", "a"⟩ :
          AdapterState Nat String) (some (KeyQuery.exact 1)) none ≠
      AdapterState.getAllKeys
        (⟨some ⟨1, [("a", ⟨⟨none, false⟩, [(1, "x"), (2, "y")]⟩)]⟩, "D", "a"⟩ :
          AdapterState Nat String) (some (KeyQuery.exact 1)) none := by
  refine ⟨rfl, rfl, by decide⟩

end SimpleIndexedDB
